import Mathlib

/-!
Verification of the cartpole direct-workflow environment
(`source/isaaclab_tasks/isaaclab_tasks/direct/cartpole/cartpole_env.py`).

Python float scalars are embedded as the exact rational numbers the IEEE-754
doubles denote; per-environment tensors of shape `[N]` become `List ℚ`
(or `List Bool`), and `[N, J]` tensors become `List (List ℚ)`.
-/

namespace Cartpole

/-- The exact rational value of the IEEE-754 double `math.pi`, the constant
appearing in `CartpoleEnv._get_dones` (`math.pi / 2` pole-angle bound) and in
the reset sampling range `initial_pole_angle_range * math.pi`. -/
def mathPi : ℚ := 884279719003555 / 281474976710656

/-- `tensor.float()` applied to a boolean tensor entry: `True ↦ 1.0`, `False ↦ 0.0`. -/
def boolFloat (b : Bool) : ℚ := if b then 1 else 0

namespace CartpoleEnvCfg

/-- `CartpoleEnvCfg.decimation`. -/
def decimation : Nat := 2

/-- `CartpoleEnvCfg.episode_length_s`. -/
def episode_length_s : ℚ := 5

/-- `CartpoleEnvCfg.action_scale` (100.0 N). -/
def action_scale : ℚ := 100

/-- `CartpoleEnvCfg.action_space`. -/
def action_space : Nat := 1

/-- `CartpoleEnvCfg.observation_space`. -/
def observation_space : Nat := 4

/-- `CartpoleEnvCfg.max_cart_pos`. -/
def max_cart_pos : ℚ := 3

/-- Lower end of `CartpoleEnvCfg.initial_pole_angle_range` (multiplied by pi at use site). -/
def initial_pole_angle_range_lo : ℚ := -1/4

/-- Upper end of `CartpoleEnvCfg.initial_pole_angle_range`. -/
def initial_pole_angle_range_hi : ℚ := 1/4

/-- `CartpoleEnvCfg.rew_scale_alive`. -/
def rew_scale_alive : ℚ := 1

/-- `CartpoleEnvCfg.rew_scale_terminated`. -/
def rew_scale_terminated : ℚ := -2

/-- `CartpoleEnvCfg.rew_scale_pole_pos`. -/
def rew_scale_pole_pos : ℚ := -1

/-- `CartpoleEnvCfg.rew_scale_cart_vel` (-0.01). -/
def rew_scale_cart_vel : ℚ := -1/100

/-- `CartpoleEnvCfg.rew_scale_pole_vel` (-0.005). -/
def rew_scale_pole_vel : ℚ := -1/200

end CartpoleEnvCfg

/-- `compute_rewards` (cartpole_env.py lines 169-188).  Each input column
(`pole_pos`, `pole_vel`, `cart_pos`, `cart_vel`, `reset_terminated`) is a
per-environment vector.  The `unsqueeze(dim=1)` / `torch.sum(..., dim=-1)`
pair in the source sums a single-column matrix along its last axis, which is
the identity on each entry, so each shaping term is elementwise. The
`cartPos` argument is accepted (as in the source signature) and unused. -/
def computeRewards (rewScaleAlive rewScaleTerminated rewScalePolePos rewScaleCartVel rewScalePoleVel : ℚ)
    (polePos poleVel cartPos cartVel : List ℚ) (resetTerminated : List Bool) : List ℚ :=
  let rewAlive := resetTerminated.map fun b => rewScaleAlive * (1 - boolFloat b)
  let rewTermination := resetTerminated.map fun b => rewScaleTerminated * boolFloat b
  let rewPolePos := polePos.map fun x => rewScalePolePos * (x * x)
  let rewCartVel := cartVel.map fun x => rewScaleCartVel * |x|
  let rewPoleVel := poleVel.map fun x => rewScalePoleVel * |x|
  List.zipWith (· + ·)
    (List.zipWith (· + ·)
      (List.zipWith (· + ·) (List.zipWith (· + ·) rewAlive rewTermination) rewPolePos)
      rewCartVel)
    rewPoleVel

/-- The reference per-environment weighted sum the specification describes for
the reward evaluator: alive bonus, termination penalty, pole-position shaping,
cart-velocity and pole-velocity penalties, each scaled by its configuration
weight. -/
def referenceReward (rewScaleAlive rewScaleTerminated rewScalePolePos rewScaleCartVel rewScalePoleVel : ℚ)
    (polePos poleVel cartVel : ℚ) (terminated : Bool) : ℚ :=
  rewScaleAlive * (1 - boolFloat terminated) + rewScaleTerminated * boolFloat terminated +
    rewScalePolePos * (polePos * polePos) + rewScaleCartVel * |cartVel| +
    rewScalePoleVel * |poleVel|

/-- The `time_out` line of `CartpoleEnv._get_dones` (line 138):
`episode_length_buf >= max_episode_length - 1`, elementwise. -/
def timeOutFlags (episodeLengthBuf : List Nat) (maxEpisodeLength : Nat) : List Bool :=
  episodeLengthBuf.map fun e => decide (maxEpisodeLength - 1 ≤ e)

/-- The `out_of_bounds` lines of `CartpoleEnv._get_dones` (lines 139-140):
`|cart_pos| > max_cart_pos` or `|pole_pos| > math.pi / 2`, elementwise (the
`torch.any(..., dim=1)` in the source ranges over the single selected joint
column). -/
def outOfBoundsFlags (cartPosCol polePosCol : List ℚ) (maxCartPos : ℚ) : List Bool :=
  List.zipWith (fun c p => decide (maxCartPos < |c|) || decide (mathPi / 2 < |p|))
    cartPosCol polePosCol

/-- `CartpoleEnv._get_dones` (cartpole_env.py lines 134-141): returns the pair
`(out_of_bounds, time_out)`. -/
def getDones (cartPosCol polePosCol : List ℚ) (episodeLengthBuf : List Nat)
    (maxEpisodeLength : Nat) (maxCartPos : ℚ) : List Bool × List Bool :=
  (outOfBoundsFlags cartPosCol polePosCol maxCartPos,
   timeOutFlags episodeLengthBuf maxEpisodeLength)

/-- `CartpoleEnv._get_observations` (cartpole_env.py lines 105-116): per
environment the concatenation along the last axis of pole joint position,
pole joint velocity, cart joint position, cart joint velocity; the result is
a dict with the single key "policy", modelled as an association list. -/
def getObservations (poleDofIdx cartDofIdx : Nat)
    (jointPos jointVel : List (List ℚ)) : List (String × List (List ℚ)) :=
  let obs := List.zipWith
    (fun p v => [p.getD poleDofIdx 0, v.getD poleDofIdx 0, p.getD cartDofIdx 0, v.getD cartDofIdx 0])
    jointPos jointVel
  [("policy", obs)]

/-- The buffers of the cartpole environment touched by `_reset_idx`:
current joint state, the articulation's default state buffers, the
environment origins, the simulator-side buffers targeted by the
`write_*_to_sim` calls, and the per-environment step counter. -/
structure CartpoleState where
  numEnvs : Nat
  jointPos : List (List ℚ)
  jointVel : List (List ℚ)
  defaultJointPos : List (List ℚ)
  defaultJointVel : List (List ℚ)
  defaultRootState : List (List ℚ)
  envOrigins : List (List ℚ)
  simRootPose : List (List ℚ)
  simRootVel : List (List ℚ)
  simJointPos : List (List ℚ)
  simJointVel : List (List ℚ)
  episodeLengthBuf : List Nat

/-- Torch advanced indexing `A[env_ids]`: the selected rows, as a fresh list. -/
def selectRows (A : List (List ℚ)) (ids : List Nat) : List (List ℚ) :=
  ids.map fun i => A.getD i []

/-- Torch fancy-index assignment `A[env_ids] = B`: row `env_ids[k]` becomes `B[k]`. -/
def writeRows {α : Type} (A : List α) : List Nat → List α → List α
  | i :: ids, b :: B => writeRows (A.set i b) ids B
  | _, _ => A

/-- `episode_length_buf[env_ids] = 0`. -/
def zeroAt (buf : List Nat) (ids : List Nat) : List Nat :=
  ids.foldl (fun b i => b.set i 0) buf

/-- `default_root_state[:, :3] += env_origins[env_ids]`, one row at a time:
the first `origin.length` entries (three, for an origin row) are incremented,
the rest are unchanged. -/
def addOrigin (row origin : List ℚ) : List ℚ :=
  List.zipWith (· + ·) (row.take origin.length) origin ++ row.drop origin.length

/-- `CartpoleEnv._reset_idx` (cartpole_env.py lines 144-166).  `samples` holds
the values drawn by `sample_uniform` for the pole joint of each selected
environment (the randomness is passed in explicitly).  Torch advanced
indexing (`default_joint_pos[env_ids]` and friends) returns fresh tensors, so
the in-place `+=` operations of the source act on copies and the default
buffers are only read here, never written.  The step-counter zeroing done by
`super()._reset_idx` is Modelled from the spec: `DirectRLEnv._reset_idx` is
not among the sources, and the specification states that an explicit reset
call zeroes the step counter of the selected environments. -/
def resetIdx (poleDofIdx : Nat) (envIds : Option (List Nat)) (samples : List ℚ)
    (s : CartpoleState) : CartpoleState :=
  let ids := envIds.getD (List.range s.numEnvs)
  let jointPosNew := List.zipWith
    (fun row v => row.set poleDofIdx (row.getD poleDofIdx 0 + v))
    (selectRows s.defaultJointPos ids) samples
  let jointVelNew := selectRows s.defaultJointVel ids
  let rootStateNew := List.zipWith addOrigin
    (selectRows s.defaultRootState ids) (selectRows s.envOrigins ids)
  { s with
    episodeLengthBuf := zeroAt s.episodeLengthBuf ids
    jointPos := writeRows s.jointPos ids jointPosNew
    jointVel := writeRows s.jointVel ids jointVelNew
    simRootPose := writeRows s.simRootPose ids (rootStateNew.map (List.take 7))
    simRootVel := writeRows s.simRootVel ids (rootStateNew.map (List.drop 7))
    simJointPos := writeRows s.simJointPos ids jointPosNew
    simJointVel := writeRows s.simJointVel ids jointVelNew }

/-- State threaded through one environment step of the direct workflow, as far
as the action pipeline is concerned: the processed-action buffer
(`self.actions`), the joint state the engine advances, and the cart-joint
effort target written by `set_joint_effort_target`. -/
structure StepState where
  actions : List ℚ
  jointPos : List (List ℚ)
  jointVel : List (List ℚ)
  effortTarget : List ℚ

/-- `CartpoleEnv._pre_physics_step` (cartpole_env.py lines 96-97):
`self.actions = self.action_scale * actions.clone()`. -/
def prePhysicsStep (actionScale : ℚ) (raw : List ℚ) (s : StepState) : StepState :=
  { s with actions := raw.map fun a => actionScale * a }

/-- `CartpoleEnv._apply_action` (cartpole_env.py lines 102-103):
`set_joint_effort_target(self.actions, joint_ids=cart_dof)`, i.e. the
cart-joint effort target buffer becomes the processed-action buffer. -/
def applyAction (s : StepState) : StepState :=
  { s with effortTarget := s.actions }

/-- Modelled from the spec: the decimation sub-step loop of the direct
workflow step function (`DirectRLEnv.step`, not among the sources).  Each
physics sub-step calls `_apply_action` and then lets the engine advance; the
engine (an opaque function of the current command and joint state) updates
only the joint state.  Returns the final state together with the trace of
effort targets written, one entry per sub-step. -/
def decimationLoop
    (engine : List ℚ → List (List ℚ) × List (List ℚ) → List (List ℚ) × List (List ℚ)) :
    Nat → StepState → StepState × List (List ℚ)
  | 0, s => (s, [])
  | k + 1, s =>
    let s1 := applyAction s
    let js := engine s1.effortTarget (s1.jointPos, s1.jointVel)
    let s2 := { s1 with jointPos := js.fst, jointVel := js.snd }
    let r := decimationLoop engine k s2
    (r.fst, s1.effortTarget :: r.snd)

/-- The per-environment joint readings (pole/cart position and velocity)
produced by the opaque engine after one decimation window. -/
structure PhysObs where
  polePos : List ℚ
  poleVel : List ℚ
  cartPos : List ℚ
  cartVel : List ℚ

/-- The per-environment buffers of the episode loop. -/
structure EpisodeState where
  actions : List ℚ
  polePos : List ℚ
  poleVel : List ℚ
  cartPos : List ℚ
  cartVel : List ℚ
  episodeLengthBuf : List Nat
  resetTerminated : List Bool
  timedOut : List Bool
  cumReward : List ℚ

/-- Modelled from the spec: one environment step of the direct-workflow loop
(`DirectRLEnv.step`, not among the sources): process the action once
(`_pre_physics_step`), run the decimation window whose physics outcome is the
externally supplied `phys`, refresh the state buffers, increment the
per-environment step counter, compute the done flags with the embedded
`_get_dones` and the reward with the embedded `compute_rewards` (which reads
this step's `reset_terminated`), and accumulate the reward. -/
def envStep (rewScaleAlive rewScaleTerminated rewScalePolePos rewScaleCartVel rewScalePoleVel : ℚ)
    (maxEpisodeLength : Nat) (maxCartPos : ℚ) (action : List ℚ) (phys : PhysObs)
    (s : EpisodeState) : EpisodeState :=
  let acts := action.map fun x => CartpoleEnvCfg.action_scale * x
  let buf := s.episodeLengthBuf.map (· + 1)
  let d := getDones phys.cartPos phys.polePos buf maxEpisodeLength maxCartPos
  let rew := computeRewards rewScaleAlive rewScaleTerminated rewScalePolePos
    rewScaleCartVel rewScalePoleVel phys.polePos phys.poleVel phys.cartPos phys.cartVel d.fst
  { actions := acts
    polePos := phys.polePos
    poleVel := phys.poleVel
    cartPos := phys.cartPos
    cartVel := phys.cartVel
    episodeLengthBuf := buf
    resetTerminated := d.fst
    timedOut := d.snd
    cumReward := List.zipWith (· + ·) s.cumReward rew }

/-- Modelled from the spec: running the step loop `k` times with a fixed
action, the engine's joint readings after the sub-step window of step `j`
being `traj j`. -/
def runEpisode (rewScaleAlive rewScaleTerminated rewScalePolePos rewScaleCartVel rewScalePoleVel : ℚ)
    (maxEpisodeLength : Nat) (maxCartPos : ℚ) (action : List ℚ) (traj : Nat → PhysObs) :
    Nat → EpisodeState → EpisodeState
  | 0, s => s
  | k + 1, s =>
    envStep rewScaleAlive rewScaleTerminated rewScalePolePos rewScaleCartVel rewScalePoleVel
      maxEpisodeLength maxCartPos action (traj k)
      (runEpisode rewScaleAlive rewScaleTerminated rewScalePolePos rewScaleCartVel rewScalePoleVel
        maxEpisodeLength maxCartPos action traj k s)

/-- The freshly reset episode buffers of an `n`-environment batch: zero state,
zero counters, no termination or timeout flags, zero accumulated reward. -/
def initEpisodeState (n : Nat) : EpisodeState :=
  { actions := List.replicate n 0
    polePos := List.replicate n 0
    poleVel := List.replicate n 0
    cartPos := List.replicate n 0
    cartVel := List.replicate n 0
    episodeLengthBuf := List.replicate n 0
    resetTerminated := List.replicate n false
    timedOut := List.replicate n false
    cumReward := List.replicate n 0 }

/-- A concrete one-environment, two-joint state used by concrete instances. -/
def exState : CartpoleState :=
  { numEnvs := 1
    jointPos := [[0, 0]]
    jointVel := [[0, 0]]
    defaultJointPos := [[0, 0]]
    defaultJointVel := [[0, 0]]
    defaultRootState := [[0, 0, 0, 0, 0, 0, 0, 0, 0, 0, 0, 0, 0]]
    envOrigins := [[0, 0, 0]]
    simRootPose := [[0, 0, 0, 0, 0, 0, 0]]
    simRootVel := [[0, 0, 0, 0, 0, 0]]
    simJointPos := [[0, 0]]
    simJointVel := [[0, 0]]
    episodeLengthBuf := [7] }

/-- A concrete two-environment, two-joint state used by concrete instances. -/
def exState2 : CartpoleState :=
  { numEnvs := 2
    jointPos := [[1, 2], [3, 4]]
    jointVel := [[5, 6], [7, 8]]
    defaultJointPos := [[0, 0], [0, 0]]
    defaultJointVel := [[0, 0], [0, 0]]
    defaultRootState := [[0, 0, 0, 0, 0, 0, 1, 0, 0, 0, 0, 0, 0], [0, 0, 0, 0, 0, 0, 1, 0, 0, 0, 0, 0, 0]]
    envOrigins := [[0, 0, 0], [4, 0, 0]]
    simRootPose := [[9, 0, 0, 0, 0, 0, 1], [10, 0, 0, 0, 0, 0, 1]]
    simRootVel := [[1, 1, 1, 1, 1, 1], [2, 2, 2, 2, 2, 2]]
    simJointPos := [[1, 2], [3, 4]]
    simJointVel := [[5, 6], [7, 8]]
    episodeLengthBuf := [11, 12] }

end Cartpole

namespace Cartpole

lemma getD_set_ne {α : Type} (A : List α) (i j : Nat) (b d : α) (h : j ≠ i) :
    (A.set i b).getD j d = A.getD j d := by
  rw [List.getD_eq_getElem?_getD, List.getD_eq_getElem?_getD,
    List.getElem?_set_ne (fun he => h he.symm)]

lemma writeRows_getD_of_not_mem {α : Type} (ids : List Nat) (B : List α) (A : List α)
    (j : Nat) (d : α) (h : j ∉ ids) :
    (writeRows A ids B).getD j d = A.getD j d := by
  induction ids generalizing A B with
  | nil => cases B <;> rfl
  | cons i ids ih =>
    cases B with
    | nil => rfl
    | cons b B =>
      have hji : j ≠ i ∧ j ∉ ids := by simpa using h
      rw [show writeRows A (i :: ids) (b :: B) = writeRows (A.set i b) ids B from rfl,
        ih B (A.set i b) hji.2, getD_set_ne A i j b d hji.1]

lemma writeRows_set_comm {α : Type} (ids : List Nat) (B : List α) (A : List α)
    (i : Nat) (a : α) (h : i ∉ ids) :
    writeRows (A.set i a) ids B = (writeRows A ids B).set i a := by
  induction ids generalizing A B with
  | nil => cases B <;> rfl
  | cons j ids ih =>
    cases B with
    | nil => rfl
    | cons b B =>
      have hij : i ≠ j ∧ i ∉ ids := by simpa using h
      rw [show writeRows (A.set i a) (j :: ids) (b :: B) =
          writeRows ((A.set i a).set j b) ids B from rfl,
        A.set_comm a b hij.1, ih B (A.set j b) hij.2]
      rfl

lemma writeRows_idem {α : Type} (ids : List Nat) (B : List α) (A : List α) (h : ids.Nodup) :
    writeRows (writeRows A ids B) ids B = writeRows A ids B := by
  induction ids generalizing A B with
  | nil => cases B <;> rfl
  | cons i ids ih =>
    cases B with
    | nil => rfl
    | cons b B =>
      have hni : i ∉ ids := (List.nodup_cons.mp h).1
      have hnd : ids.Nodup := (List.nodup_cons.mp h).2
      show writeRows ((writeRows (A.set i b) ids B).set i b) ids B =
        writeRows (A.set i b) ids B
      rw [writeRows_set_comm ids B _ i b hni, ih B (A.set i b) hnd,
        ← writeRows_set_comm ids B (A.set i b) i b hni, List.set_set]

lemma zeroAt_length (ids : List Nat) (buf : List Nat) :
    (zeroAt buf ids).length = buf.length := by
  induction ids generalizing buf with
  | nil => rfl
  | cons i ids ih =>
    rw [show zeroAt buf (i :: ids) = zeroAt (buf.set i 0) ids from rfl,
      ih (buf.set i 0), List.length_set]

lemma zeroAt_getD_of_not_mem (ids : List Nat) (buf : List Nat) (i d : Nat) (h : i ∉ ids) :
    (zeroAt buf ids).getD i d = buf.getD i d := by
  induction ids generalizing buf with
  | nil => rfl
  | cons j ids ih =>
    have hij : i ≠ j ∧ i ∉ ids := by simpa using h
    rw [show zeroAt buf (j :: ids) = zeroAt (buf.set j 0) ids from rfl,
      ih (buf.set j 0) hij.2, getD_set_ne buf j i 0 d hij.1]

lemma zeroAt_getD_of_mem (ids : List Nat) (buf : List Nat) (i : Nat) (h : i ∈ ids)
    (hlen : i < buf.length) : (zeroAt buf ids).getD i 0 = 0 := by
  induction ids generalizing buf with
  | nil => exact absurd h (List.not_mem_nil i)
  | cons j ids ih =>
    by_cases hm : i ∈ ids
    · exact ih (buf.set j 0) hm (by rw [List.length_set]; exact hlen)
    · have hij : i = j := by
        rcases List.mem_cons.mp h with h1 | h2
        · exact h1
        · exact absurd h2 hm
      subst hij
      rw [show zeroAt buf (i :: ids) = zeroAt (buf.set i 0) ids from rfl,
        zeroAt_getD_of_not_mem ids (buf.set i 0) i 0 hm,
        List.getD_eq_getElem _ _ (by rw [List.length_set]; exact hlen),
        List.getElem_set_self]

lemma computeRewards_length (a t pp cv pv : ℚ) (P V C W : List ℚ) (T : List Bool) (N : Nat)
    (hP : P.length = N) (hV : V.length = N) (hW : W.length = N) (hT : T.length = N) :
    (computeRewards a t pp cv pv P V C W T).length = N := by
  simp [computeRewards, hP, hV, hW, hT]

lemma computeRewards_getD (a t pp cv pv : ℚ) (P V C W : List ℚ) (T : List Bool) (N i : Nat)
    (hP : P.length = N) (hV : V.length = N) (hW : W.length = N) (hT : T.length = N)
    (hi : i < N) :
    (computeRewards a t pp cv pv P V C W T).getD i 0 =
      referenceReward a t pp cv pv (P.getD i 0) (V.getD i 0) (W.getD i 0) (T.getD i false) := by
  have h1 : i < P.length := hP ▸ hi
  have h2 : i < V.length := hV ▸ hi
  have h4 : i < W.length := hW ▸ hi
  have h5 : i < T.length := hT ▸ hi
  have hlen : i < (computeRewards a t pp cv pv P V C W T).length :=
    (computeRewards_length a t pp cv pv P V C W T N hP hV hW hT) ▸ hi
  rw [List.getD_eq_getElem _ _ hlen, List.getD_eq_getElem _ _ h1, List.getD_eq_getElem _ _ h2,
    List.getD_eq_getElem _ _ h4, List.getD_eq_getElem _ _ h5]
  simp only [computeRewards, referenceReward, List.getElem_zipWith, List.getElem_map]

end Cartpole

namespace Cartpole

lemma zipWith_replicate_add (n : Nat) (a b : ℚ) :
    List.zipWith (· + ·) (List.replicate n a) (List.replicate n b) =
      List.replicate n (a + b) := by
  induction n with
  | zero => rfl
  | succ n ih => simp [List.replicate_succ, ih]

lemma computeRewards_zero_shaping (P V C W : List ℚ) (N : Nat)
    (hP : P.length = N) (hV : V.length = N) (hW : W.length = N) :
    computeRewards 1 (-2) 0 0 0 P V C W (List.replicate N false) = List.replicate N 1 := by
  have hT : (List.replicate N false).length = N := List.length_replicate N false
  apply List.ext_getElem
  · rw [computeRewards_length 1 (-2) 0 0 0 P V C W _ N hP hV hW hT, List.length_replicate]
  · intro i h1 h2
    have hi : i < N := by
      rw [computeRewards_length 1 (-2) 0 0 0 P V C W _ N hP hV hW hT] at h1
      exact h1
    rw [← List.getD_eq_getElem _ 0 h1,
      computeRewards_getD 1 (-2) 0 0 0 P V C W _ N i hP hV hW hT hi,
      List.getElem_replicate,
      List.getD_eq_getElem _ false (by rw [List.length_replicate]; exact hi),
      List.getElem_replicate]
    simp [referenceReward, boolFloat]

lemma timeOutFlags_replicate (n len m : Nat) :
    timeOutFlags (List.replicate n m) len = List.replicate n (decide (len - 1 ≤ m)) := by
  simp [timeOutFlags, List.map_replicate]

end Cartpole

namespace Cartpole

lemma decimationLoop_trace
    (engine : List ℚ → List (List ℚ) × List (List ℚ) → List (List ℚ) × List (List ℚ))
    (k : Nat) (s : StepState) :
    (decimationLoop engine k s).snd = List.replicate k s.actions := by
  induction k generalizing s with
  | zero => rfl
  | succ k ih =>
    show (let s1 := applyAction s
          let js := engine s1.effortTarget (s1.jointPos, s1.jointVel)
          let s2 := { s1 with jointPos := js.fst, jointVel := js.snd }
          let r := decimationLoop engine k s2
          (r.fst, s1.effortTarget :: r.snd)).snd = List.replicate (k + 1) s.actions
    simp only [applyAction]
    rw [ih]
    rfl

/-- C3: `compute_rewards` is a pure function — on identical inputs it returns
identical outputs — and entry `i` of its result is exactly the reference
weighted sum `alive*(1-terminated) + terminated_scale*terminated +
pole_pos_scale*pole_pos^2 + cart_vel_scale*|cart_vel| + pole_vel_scale*|pole_vel|`. -/
theorem c3_compute_rewards_pure (a t pp cv pv : ℚ) (P V C W : List ℚ) (T : List Bool)
    (N i : Nat) (hP : P.length = N) (hV : V.length = N) (hC : C.length = N)
    (hW : W.length = N) (hT : T.length = N) (hi : i < N) :
    computeRewards a t pp cv pv P V C W T = computeRewards a t pp cv pv P V C W T ∧
    (computeRewards a t pp cv pv P V C W T).getD i 0 =
      referenceReward a t pp cv pv (P.getD i 0) (V.getD i 0) (W.getD i 0) (T.getD i false) :=
  ⟨rfl, computeRewards_getD a t pp cv pv P V C W T N i hP hV hW hT hi⟩

theorem c3_witness :
    ([(1 : ℚ), 2].length = 2) ∧
    (computeRewards 1 (-2) (-1) (-1/100) (-1/200) [1, 2] [0, 3] [5, 6] [3, -3] [false, true] =
        computeRewards 1 (-2) (-1) (-1/100) (-1/200) [1, 2] [0, 3] [5, 6] [3, -3] [false, true] ∧
      (computeRewards 1 (-2) (-1) (-1/100) (-1/200) [1, 2] [0, 3] [5, 6] [3, -3] [false, true]).getD 0 0 =
        referenceReward 1 (-2) (-1) (-1/100) (-1/200) ([(1 : ℚ), 2].getD 0 0)
          ([(0 : ℚ), 3].getD 0 0) ([(3 : ℚ), -3].getD 0 0) ([false, true].getD 0 false)) :=
  ⟨by decide,
    c3_compute_rewards_pure 1 (-2) (-1) (-1/100) (-1/200) [1, 2] [0, 3] [5, 6] [3, -3]
      [false, true] 2 0 rfl rfl rfl rfl rfl (by decide)⟩

/-- C10: `compute_rewards` does not depend on its `cart_pos` argument: two
calls agreeing on every other input return equal reward vectors. -/
theorem c10_cart_pos_independent (a t pp cv pv : ℚ) (P V Ca Cb W : List ℚ) (T : List Bool) :
    computeRewards a t pp cv pv P V Ca W T = computeRewards a t pp cv pv P V Cb W T := rfl

/-- C2 counterexample: with `max_episode_length = 300` the timeout flag of
`_get_dones` is already true when the step counter is 299, i.e. before the
counter has reached the configured episode length. -/
theorem c2_counterexample :
    (getDones [0] [0] [299] 300 3).snd = [true] ∧ (299 : Nat) < 300 := by decide

/-- C2 (amended): the timeout flag returned by `_get_dones` for environment
`i` is true exactly when `episode_length_buf[i] >= max_episode_length - 1`,
i.e. one step before the counter reaches the configured episode length. -/
theorem c2_timeout_iff (cartPosCol polePosCol : List ℚ) (buf : List Nat)
    (maxEpisodeLength : Nat) (maxCartPos : ℚ) (i : Nat) (hi : i < buf.length) :
    ((getDones cartPosCol polePosCol buf maxEpisodeLength maxCartPos).snd.getD i false = true ↔
      maxEpisodeLength - 1 ≤ buf.getD i 0) := by
  have hm : i < (timeOutFlags buf maxEpisodeLength).length := by
    simpa [timeOutFlags] using hi
  rw [show (getDones cartPosCol polePosCol buf maxEpisodeLength maxCartPos).snd =
      timeOutFlags buf maxEpisodeLength from rfl,
    List.getD_eq_getElem _ false hm, List.getD_eq_getElem _ 0 hi]
  simp [timeOutFlags]

theorem c2_amended_witness :
    ((0 : Nat) < [299].length) ∧
    ((getDones [0] [0] [299] 300 3).snd.getD 0 false = true ↔ 300 - 1 ≤ [299].getD 0 0) :=
  ⟨by decide, c2_timeout_iff [0] [0] [299] 300 3 0 (by decide)⟩

/-- C4: the observation computation returns a dict containing the key
"policy"; row `i` of its value is the width-4 vector
`[pole_pos, pole_vel, cart_pos, cart_vel]` in that declared order, the width
equals the declared `observation_space` (which is 4), and computing twice on
unchanged state yields identical output. -/
theorem c4_observations (poleDofIdx cartDofIdx : Nat) (jointPos jointVel : List (List ℚ))
    (i : Nat) (h1 : i < jointPos.length) (h2 : i < jointVel.length) :
    (List.lookup "policy" (getObservations poleDofIdx cartDofIdx jointPos jointVel)).isSome = true ∧
    ((List.lookup "policy" (getObservations poleDofIdx cartDofIdx jointPos jointVel)).getD []).getD i [] =
      [(jointPos.getD i []).getD poleDofIdx 0, (jointVel.getD i []).getD poleDofIdx 0,
       (jointPos.getD i []).getD cartDofIdx 0, (jointVel.getD i []).getD cartDofIdx 0] ∧
    (((List.lookup "policy" (getObservations poleDofIdx cartDofIdx jointPos jointVel)).getD []).getD i []).length =
      CartpoleEnvCfg.observation_space ∧
    CartpoleEnvCfg.observation_space = 4 ∧
    getObservations poleDofIdx cartDofIdx jointPos jointVel =
      getObservations poleDofIdx cartDofIdx jointPos jointVel := by
  have hz : i < (List.zipWith
      (fun p v => [p.getD poleDofIdx 0, v.getD poleDofIdx 0, p.getD cartDofIdx 0, v.getD cartDofIdx 0])
      jointPos jointVel).length := by
    rw [List.length_zipWith]
    omega
  have hrow : ((List.lookup "policy" (getObservations poleDofIdx cartDofIdx jointPos jointVel)).getD []).getD i [] =
      [(jointPos.getD i []).getD poleDofIdx 0, (jointVel.getD i []).getD poleDofIdx 0,
       (jointPos.getD i []).getD cartDofIdx 0, (jointVel.getD i []).getD cartDofIdx 0] := by
    rw [show (List.lookup "policy" (getObservations poleDofIdx cartDofIdx jointPos jointVel)).getD [] =
        List.zipWith
          (fun p v => [p.getD poleDofIdx 0, v.getD poleDofIdx 0, p.getD cartDofIdx 0, v.getD cartDofIdx 0])
          jointPos jointVel from rfl,
      List.getD_eq_getElem _ [] hz, List.getElem_zipWith,
      List.getD_eq_getElem _ [] h1, List.getD_eq_getElem _ [] h2]
  exact ⟨rfl, hrow, by rw [hrow]; rfl, rfl, rfl⟩

theorem c4_witness :
    ((0 : Nat) < [[(1 : ℚ), 2], [3, 4]].length) ∧
    ((List.lookup "policy" (getObservations 1 0 [[(1 : ℚ), 2], [3, 4]] [[5, 6], [7, 8]])).isSome = true ∧
      ((List.lookup "policy" (getObservations 1 0 [[(1 : ℚ), 2], [3, 4]] [[5, 6], [7, 8]])).getD []).getD 0 [] =
        [([[(1 : ℚ), 2], [3, 4]].getD 0 []).getD 1 0, ([[(5 : ℚ), 6], [7, 8]].getD 0 []).getD 1 0,
         ([[(1 : ℚ), 2], [3, 4]].getD 0 []).getD 0 0, ([[(5 : ℚ), 6], [7, 8]].getD 0 []).getD 0 0] ∧
      (((List.lookup "policy" (getObservations 1 0 [[(1 : ℚ), 2], [3, 4]] [[5, 6], [7, 8]])).getD []).getD 0 []).length =
        CartpoleEnvCfg.observation_space ∧
      CartpoleEnvCfg.observation_space = 4 ∧
      getObservations 1 0 [[(1 : ℚ), 2], [3, 4]] [[5, 6], [7, 8]] =
        getObservations 1 0 [[(1 : ℚ), 2], [3, 4]] [[5, 6], [7, 8]]) :=
  ⟨by decide, c4_observations 1 0 [[(1 : ℚ), 2], [3, 4]] [[5, 6], [7, 8]] 0 (by decide) (by decide)⟩

/-- C5: within one environment step every decimation sub-step writes the same
effort target, namely `action_scale` times the raw action handed to the single
pre-physics processing call: the trace of targets written across `k` sub-steps
is `k` copies of the processed action, however the engine evolves the joint
state in between. -/
theorem c5_action_held_constant
    (engine : List ℚ → List (List ℚ) × List (List ℚ) → List (List ℚ) × List (List ℚ))
    (actionScale : ℚ) (raw : List ℚ) (s : StepState) (k : Nat) :
    (decimationLoop engine k (prePhysicsStep actionScale raw s)).snd =
      List.replicate k (raw.map fun a => actionScale * a) := by
  rw [decimationLoop_trace]
  rfl

/-- C8: `_reset_idx` never modifies the default joint-position, joint-velocity
or root-state buffers: the in-place additions of the source act on the fresh
tensors produced by advanced indexing, so the default buffers read back
unchanged after every reset. -/
theorem c8_defaults_immutable (poleDofIdx : Nat) (envIds : Option (List Nat))
    (samples : List ℚ) (s : CartpoleState) :
    (resetIdx poleDofIdx envIds samples s).defaultJointPos = s.defaultJointPos ∧
    (resetIdx poleDofIdx envIds samples s).defaultJointVel = s.defaultJointVel ∧
    (resetIdx poleDofIdx envIds samples s).defaultRootState = s.defaultRootState :=
  ⟨rfl, rfl, rfl⟩

/-- C9: calling `_reset_idx` with `env_ids = None` behaves identically to
calling it on the full index set `0..N-1` (the `None` default selects every
environment via `_ALL_INDICES`). -/
theorem c9_reset_none_is_all (poleDofIdx : Nat) (samples : List ℚ) (s : CartpoleState) :
    resetIdx poleDofIdx none samples s =
      resetIdx poleDofIdx (some (List.range s.numEnvs)) samples s := rfl

end Cartpole

namespace Cartpole

/-- C6 counterexample: two consecutive `_reset_idx` calls on environment 0
with legal pole-angle draws (0 and 1/10, both inside
`initial_pole_angle_range * pi`) produce different joint-position state, so
reset is not idempotent as claimed: `sample_uniform` draws fresh randomness
on every call. -/
theorem c6_counterexample :
    CartpoleEnvCfg.initial_pole_angle_range_lo * mathPi ≤ 0 ∧
    (0 : ℚ) ≤ CartpoleEnvCfg.initial_pole_angle_range_hi * mathPi ∧
    CartpoleEnvCfg.initial_pole_angle_range_lo * mathPi ≤ 1/10 ∧
    (1/10 : ℚ) ≤ CartpoleEnvCfg.initial_pole_angle_range_hi * mathPi ∧
    (resetIdx 1 (some [0]) [1/10] (resetIdx 1 (some [0]) [0] exState)).jointPos ≠
      (resetIdx 1 (some [0]) [0] exState).jointPos := by
  refine ⟨?_, ?_, ?_, ?_, ?_⟩
  · norm_num [CartpoleEnvCfg.initial_pole_angle_range_lo, mathPi]
  · norm_num [CartpoleEnvCfg.initial_pole_angle_range_hi, mathPi]
  · norm_num [CartpoleEnvCfg.initial_pole_angle_range_lo, mathPi]
  · norm_num [CartpoleEnvCfg.initial_pole_angle_range_hi, mathPi]
  · intro h
    have h3 : (0 : ℚ) + 1/10 = 0 + 0 :=
      congrArg (fun l => (l.getD 0 []).getD 1 (0 : ℚ)) h
    norm_num at h3

/-- C6 (amended): when the two consecutive `_reset_idx` calls draw the same
pole-angle offsets, they produce identical joint-position and joint-velocity
state both times, and each reset environment's step counter is exactly 0
after either call. -/
theorem c6_reset_idempotent_amended (poleDofIdx : Nat) (ids : List Nat) (samples : List ℚ)
    (s : CartpoleState) (i : Nat) (hnd : ids.Nodup) (hi : i ∈ ids)
    (hlen : i < s.episodeLengthBuf.length) :
    (resetIdx poleDofIdx (some ids) samples (resetIdx poleDofIdx (some ids) samples s)).jointPos =
      (resetIdx poleDofIdx (some ids) samples s).jointPos ∧
    (resetIdx poleDofIdx (some ids) samples (resetIdx poleDofIdx (some ids) samples s)).jointVel =
      (resetIdx poleDofIdx (some ids) samples s).jointVel ∧
    (resetIdx poleDofIdx (some ids) samples s).episodeLengthBuf.getD i 0 = 0 ∧
    (resetIdx poleDofIdx (some ids) samples (resetIdx poleDofIdx (some ids) samples s)).episodeLengthBuf.getD i 0 = 0 := by
  refine ⟨?_, ?_, ?_, ?_⟩
  · exact writeRows_idem ids _ s.jointPos hnd
  · exact writeRows_idem ids _ s.jointVel hnd
  · exact zeroAt_getD_of_mem ids s.episodeLengthBuf i hi hlen
  · exact zeroAt_getD_of_mem ids _ i hi
      (by rw [show (resetIdx poleDofIdx (some ids) samples s).episodeLengthBuf =
          zeroAt s.episodeLengthBuf ids from rfl, zeroAt_length]; exact hlen)

theorem c6_amended_witness :
    ([(0 : Nat)].Nodup) ∧
    ((resetIdx 1 (some [0]) [1/10] (resetIdx 1 (some [0]) [1/10] exState)).jointPos =
        (resetIdx 1 (some [0]) [1/10] exState).jointPos ∧
      (resetIdx 1 (some [0]) [1/10] (resetIdx 1 (some [0]) [1/10] exState)).jointVel =
        (resetIdx 1 (some [0]) [1/10] exState).jointVel ∧
      (resetIdx 1 (some [0]) [1/10] exState).episodeLengthBuf.getD 0 0 = 0 ∧
      (resetIdx 1 (some [0]) [1/10] (resetIdx 1 (some [0]) [1/10] exState)).episodeLengthBuf.getD 0 0 = 0) :=
  ⟨by decide,
    c6_reset_idempotent_amended 1 [0] [1/10] exState 0 (by decide) (by decide) (by decide)⟩

/-- C7: a `_reset_idx` write restricted to `env_ids` leaves the state row of
every environment outside the subset unchanged: current joint position and
velocity, the three simulator buffers targeted by the `write_*_to_sim` calls,
and the step counter all read back bit-identical for such environments. -/
theorem c7_subset_write_frame (poleDofIdx : Nat) (ids : List Nat) (samples : List ℚ)
    (s : CartpoleState) (j : Nat) (h : j ∉ ids) :
    (resetIdx poleDofIdx (some ids) samples s).jointPos.getD j [] = s.jointPos.getD j [] ∧
    (resetIdx poleDofIdx (some ids) samples s).jointVel.getD j [] = s.jointVel.getD j [] ∧
    (resetIdx poleDofIdx (some ids) samples s).simRootPose.getD j [] = s.simRootPose.getD j [] ∧
    (resetIdx poleDofIdx (some ids) samples s).simRootVel.getD j [] = s.simRootVel.getD j [] ∧
    (resetIdx poleDofIdx (some ids) samples s).simJointPos.getD j [] = s.simJointPos.getD j [] ∧
    (resetIdx poleDofIdx (some ids) samples s).simJointVel.getD j [] = s.simJointVel.getD j [] ∧
    (resetIdx poleDofIdx (some ids) samples s).episodeLengthBuf.getD j 0 = s.episodeLengthBuf.getD j 0 :=
  ⟨writeRows_getD_of_not_mem ids _ s.jointPos j [] h,
   writeRows_getD_of_not_mem ids _ s.jointVel j [] h,
   writeRows_getD_of_not_mem ids _ s.simRootPose j [] h,
   writeRows_getD_of_not_mem ids _ s.simRootVel j [] h,
   writeRows_getD_of_not_mem ids _ s.simJointPos j [] h,
   writeRows_getD_of_not_mem ids _ s.simJointVel j [] h,
   zeroAt_getD_of_not_mem ids s.episodeLengthBuf j 0 h⟩

theorem c7_witness :
    ((1 : Nat) ∉ [0]) ∧
    ((resetIdx 1 (some [0]) [1/10] exState2).jointPos.getD 1 [] = exState2.jointPos.getD 1 [] ∧
      (resetIdx 1 (some [0]) [1/10] exState2).jointVel.getD 1 [] = exState2.jointVel.getD 1 [] ∧
      (resetIdx 1 (some [0]) [1/10] exState2).simRootPose.getD 1 [] = exState2.simRootPose.getD 1 [] ∧
      (resetIdx 1 (some [0]) [1/10] exState2).simRootVel.getD 1 [] = exState2.simRootVel.getD 1 [] ∧
      (resetIdx 1 (some [0]) [1/10] exState2).simJointPos.getD 1 [] = exState2.simJointPos.getD 1 [] ∧
      (resetIdx 1 (some [0]) [1/10] exState2).simJointVel.getD 1 [] = exState2.simJointVel.getD 1 [] ∧
      (resetIdx 1 (some [0]) [1/10] exState2).episodeLengthBuf.getD 1 0 = exState2.episodeLengthBuf.getD 1 0) :=
  ⟨by decide, c7_subset_write_frame 1 [0] [1/10] exState2 1 (by decide)⟩

end Cartpole

namespace Cartpole

lemma runEpisode_invariant (N maxEpisodeLength : Nat) (maxCartPos : ℚ) (action : List ℚ)
    (traj : Nat → PhysObs)
    (hlen : ∀ k, (traj k).polePos.length = N ∧ (traj k).poleVel.length = N ∧
      (traj k).cartPos.length = N ∧ (traj k).cartVel.length = N)
    (hoob : ∀ k, outOfBoundsFlags (traj k).cartPos (traj k).polePos maxCartPos =
      List.replicate N false) (k : Nat) :
    (runEpisode 1 (-2) 0 0 0 maxEpisodeLength maxCartPos action traj k (initEpisodeState N)).episodeLengthBuf =
      List.replicate N k ∧
    (runEpisode 1 (-2) 0 0 0 maxEpisodeLength maxCartPos action traj k (initEpisodeState N)).resetTerminated =
      List.replicate N false ∧
    (runEpisode 1 (-2) 0 0 0 maxEpisodeLength maxCartPos action traj k (initEpisodeState N)).cumReward =
      List.replicate N (k : ℚ) := by
  induction k with
  | zero => exact ⟨rfl, rfl, by norm_num [runEpisode, initEpisodeState]⟩
  | succ k ih =>
    obtain ⟨ib, ir, ic⟩ := ih
    refine ⟨?_, ?_, ?_⟩
    · show ((runEpisode 1 (-2) 0 0 0 maxEpisodeLength maxCartPos action traj k
          (initEpisodeState N)).episodeLengthBuf.map (· + 1)) = List.replicate N (k + 1)
      rw [ib, List.map_replicate]
    · show outOfBoundsFlags (traj k).cartPos (traj k).polePos maxCartPos =
        List.replicate N false
      exact hoob k
    · show List.zipWith (· + ·)
        (runEpisode 1 (-2) 0 0 0 maxEpisodeLength maxCartPos action traj k
          (initEpisodeState N)).cumReward
        (computeRewards 1 (-2) 0 0 0 (traj k).polePos (traj k).poleVel (traj k).cartPos
          (traj k).cartVel (outOfBoundsFlags (traj k).cartPos (traj k).polePos maxCartPos)) =
        List.replicate N ((k + 1 : Nat) : ℚ)
      rw [ic, hoob k,
        computeRewards_zero_shaping (traj k).polePos (traj k).poleVel (traj k).cartPos
          (traj k).cartVel N (hlen k).1 (hlen k).2.1 (hlen k).2.2.2,
        zipWith_replicate_add]
      push_cast
      rfl

/-- C1: with reward weights alive=1.0, terminated=-2.0 and all shaping weights
zero, stepping an N-environment batch with the zero action for
`max_episode_length` steps during which the out-of-bounds termination
predicate never fires yields `timed_out` true for every environment,
`terminated` false for every environment, and a cumulative reward of exactly
`episode_length * 1.0` per environment (each step's `compute_rewards` value
is 1.0 when `reset_terminated` is false and the shaping weights are zero). -/
theorem c1_end_to_end (N L : Nat) (maxCartPos : ℚ) (traj : Nat → PhysObs)
    (hL : 1 ≤ L)
    (hlen : ∀ k, (traj k).polePos.length = N ∧ (traj k).poleVel.length = N ∧
      (traj k).cartPos.length = N ∧ (traj k).cartVel.length = N)
    (hoob : ∀ k, outOfBoundsFlags (traj k).cartPos (traj k).polePos maxCartPos =
      List.replicate N false) :
    (runEpisode 1 (-2) 0 0 0 L maxCartPos (List.replicate N 0) traj L (initEpisodeState N)).timedOut =
      List.replicate N true ∧
    (runEpisode 1 (-2) 0 0 0 L maxCartPos (List.replicate N 0) traj L (initEpisodeState N)).resetTerminated =
      List.replicate N false ∧
    (runEpisode 1 (-2) 0 0 0 L maxCartPos (List.replicate N 0) traj L (initEpisodeState N)).cumReward =
      List.replicate N ((L : ℚ) * 1) := by
  obtain ⟨m, rfl⟩ : ∃ m, L = m + 1 := ⟨L - 1, by omega⟩
  obtain ⟨ibm, hr1, hc1⟩ := runEpisode_invariant N (m + 1) maxCartPos (List.replicate N 0)
    traj hlen hoob m
  obtain ⟨hb2, irL, icL⟩ := runEpisode_invariant N (m + 1) maxCartPos (List.replicate N 0)
    traj hlen hoob (m + 1)
  refine ⟨?_, irL, ?_⟩
  · show timeOutFlags
      ((runEpisode 1 (-2) 0 0 0 (m + 1) maxCartPos (List.replicate N 0) traj m
        (initEpisodeState N)).episodeLengthBuf.map (· + 1)) (m + 1) = List.replicate N true
    rw [ibm, List.map_replicate, timeOutFlags_replicate]
    have hd : decide (m + 1 - 1 ≤ m + 1) = true := by
      simp
    rw [hd]
  · rw [icL, mul_one]

end Cartpole

namespace Cartpole

theorem c1_witness :
    (1 ≤ 2) ∧
    ((runEpisode 1 (-2) 0 0 0 2 3 (List.replicate 2 0)
        (fun _ => { polePos := [0, 0], poleVel := [0, 0], cartPos := [0, 0], cartVel := [0, 0] }) 2
        (initEpisodeState 2)).timedOut = List.replicate 2 true ∧
      (runEpisode 1 (-2) 0 0 0 2 3 (List.replicate 2 0)
        (fun _ => { polePos := [0, 0], poleVel := [0, 0], cartPos := [0, 0], cartVel := [0, 0] }) 2
        (initEpisodeState 2)).resetTerminated = List.replicate 2 false ∧
      (runEpisode 1 (-2) 0 0 0 2 3 (List.replicate 2 0)
        (fun _ => { polePos := [0, 0], poleVel := [0, 0], cartPos := [0, 0], cartVel := [0, 0] }) 2
        (initEpisodeState 2)).cumReward = List.replicate 2 (((2 : Nat) : ℚ) * 1)) :=
  ⟨by decide,
    c1_end_to_end 2 2 3
      (fun _ => { polePos := [0, 0], poleVel := [0, 0], cartPos := [0, 0], cartVel := [0, 0] })
      (by decide) (fun _ => ⟨rfl, rfl, rfl, rfl⟩)
      (fun _ => show outOfBoundsFlags [0, 0] [0, 0] 3 = List.replicate 2 false by
        norm_num [outOfBoundsFlags, mathPi, List.replicate])⟩

end Cartpole
